import Mathlib

/-!
Verification of the cumulative-performance aggregator of the MLB stats
application (`get_player_game_log` in `app.py`).

The aggregator consumes a list of per-game box-score records (JSON objects
from the stats provider, here modelled as records with optional fields),
sorts them by their raw date string (missing dates sort as the empty
string, the sort is stable), and folds over the sorted list maintaining six
running sums (at-bats, hits, walks, hit-by-pitch, sacrifice flies, total
bases).  After adding a game's stats it emits a cumulative snapshot exactly
when the running at-bat total is positive, numbering snapshots by the count
of snapshots emitted so far.  Ratios are modelled over `ℚ` (the Python code
computes them in floating point; the rational model captures the exact
arithmetic the formulas denote).
-/

namespace MLB

/-- A per-game box-score stat object as delivered by the provider.  Every
numeric field may be absent; the code reads each with a default of `0`
(`stat.get('atBats', 0)` and so on in `app.py`). -/
structure Stat where
  atBats : Option Int := none
  hits : Option Int := none
  baseOnBalls : Option Int := none
  hitByPitch : Option Int := none
  sacFlies : Option Int := none
  doubles : Option Int := none
  triples : Option Int := none
  homeRuns : Option Int := none
  totalBases : Option Int := none
deriving DecidableEq

/-- A raw game record: `game.get('date', '')` and `game.get('stat', {})`
in the source; both the date and the whole stat object may be absent. -/
structure Game where
  date : Option String := none
  stat : Option Stat := none
deriving DecidableEq

/-- `game.get('stat', {})` — a missing stat object behaves as an empty
dict, i.e. as a `Stat` with every field absent. -/
def gameStat (g : Game) : Stat := g.stat.getD {}

/-- `x.get('date', '')` — the sort key; a missing date is the empty
string. -/
def dateKey (g : Game) : String := g.date.getD ""

/-- Per-game total-bases resolution (`app.py` lines 161–171): take the
provider's `totalBases` (default 0); when it equals zero, derive
`singles + 2*doubles + 3*triples + 4*homeRuns` with
`singles = hits - doubles - triples - homeRuns`. -/
def resolveTB (s : Stat) : Int :=
  let tb := s.totalBases.getD 0
  if tb = 0 then
    let d := s.doubles.getD 0
    let t := s.triples.getD 0
    let hr := s.homeRuns.getD 0
    let singles := s.hits.getD 0 - d - t - hr
    singles + d * 2 + t * 3 + hr * 4
  else tb

/-- The six running sums maintained by the loop (`app.py` lines 143–148). -/
structure Sums where
  ab : Int
  h : Int
  bb : Int
  hbp : Int
  sf : Int
  tb : Int
deriving DecidableEq

/-- All six running sums start at zero. -/
def sumsZero : Sums := ⟨0, 0, 0, 0, 0, 0⟩

/-- One accumulation step (`app.py` lines 154–179): add the game's
at-bats, hits, walks, hit-by-pitch, sac-flies and resolved total bases to
the running sums. -/
def addGame (c : Sums) (g : Game) : Sums :=
  { ab := c.ab + (gameStat g).atBats.getD 0
    h := c.h + (gameStat g).hits.getD 0
    bb := c.bb + (gameStat g).baseOnBalls.getD 0
    hbp := c.hbp + (gameStat g).hitByPitch.getD 0
    sf := c.sf + (gameStat g).sacFlies.getD 0
    tb := c.tb + resolveTB (gameStat g) }

/-- The on-base-percentage denominator `AB + BB + HBP + SF`
(`app.py` line 184). -/
def obpDenom (c : Sums) : Int := c.ab + c.bb + c.hbp + c.sf

/-- On-base percentage (`app.py` lines 185–188): `(H + BB + HBP)` over
`obpDenom` when that denominator is positive, else `0`. -/
def obpOf (c : Sums) : ℚ :=
  if 0 < obpDenom c then ((c.h + c.bb + c.hbp : Int) : ℚ) / ((obpDenom c : Int) : ℚ)
  else 0

/-- Slugging percentage `TB / AB` (`app.py` line 191). -/
def slgOf (c : Sums) : ℚ := (c.tb : ℚ) / (c.ab : ℚ)

/-- Batting average `H / AB` (`app.py` line 197). -/
def avgOf (c : Sums) : ℚ := (c.h : ℚ) / (c.ab : ℚ)

/-- An emitted cumulative snapshot — the dict appended to `game_data`
(`app.py` lines 199–208). -/
structure Snapshot where
  date : String
  game_number : Nat
  ops : ℚ
  obp : ℚ
  slg : ℚ
  avg : ℚ
  ab : Int
  h : Int
deriving DecidableEq

/-- Build the snapshot appended for a game: its date, its 1-based number,
`ops = obp + slg`, and the current cumulative counts. -/
def mkSnap (d : String) (n : Nat) (c : Sums) : Snapshot :=
  { date := d
    game_number := n
    ops := obpOf c + slgOf c
    obp := obpOf c
    slg := slgOf c
    avg := avgOf c
    ab := c.ab
    h := c.h }

/-- The body of the `for game in sorted(...)` loop (`app.py` lines
150–208) as a fold step: accumulate the game's stats and, when the
cumulative at-bat count is positive, append a snapshot numbered
`len(game_data) + 1`. -/
def step (acc : Sums × List Snapshot) (g : Game) : Sums × List Snapshot :=
  let c := addGame acc.1 g
  if 0 < c.ab then (c, acc.2 ++ [mkSnap (dateKey g) (acc.2.length + 1) c])
  else (c, acc.2)

/-- `sorted(game_logs, key=lambda x: x.get('date', ''))` — Python's
`sorted` is a stable merge sort on the (string) key, ascending. -/
def sortGames (gs : List Game) : List Game :=
  gs.mergeSort fun a b => decide (dateKey a ≤ dateKey b)

/-- The whole accumulation loop over an (already sorted) game list:
the `game_data` list after the `for` loop. -/
def processGames (gs : List Game) : List Snapshot :=
  (gs.foldl step (sumsZero, [])).2

/-- The aggregator (`get_player_game_log`, `app.py` lines 142–210)
restricted to its algorithmic core: sort the raw game records by date,
run the accumulation loop, and return `none` when no snapshot was emitted
(`return pd.DataFrame(game_data) if game_data else None`). -/
def get_player_game_log (gs : List Game) : Option (List Snapshot) :=
  if processGames (sortGames gs) = [] then none
  else some (processGames (sortGames gs))

/-- Specification-side transcription of the accumulation algorithm as the
spec states it (§4, steps 1–4): for each game in order, add its stats to
the running sums; if cumulative at-bats is still not positive, skip the
game (it contributed to the sums but gets no snapshot); otherwise emit a
snapshot numbered by the 1-based count of snapshots emitted so far. -/
def specRun (c : Sums) (emitted : Nat) : List Game → List Snapshot
  | [] => []
  | g :: rest =>
    let c' := addGame c g
    if 0 < c'.ab then mkSnap (dateKey g) (emitted + 1) c' :: specRun c' (emitted + 1) rest
    else specRun c' emitted rest

/-- Specification-side output: run the transcription from all-zero sums
with no snapshots emitted yet. -/
def specOut (gs : List Game) : List Snapshot := specRun sumsZero 0 gs

/-- Running sums after the first `k` games, starting from `c`. -/
def cumFrom (c : Sums) (gs : List Game) (k : Nat) : Sums :=
  (gs.take k).foldl addGame c

/-- Cumulative sums after the first `k` games of a list. -/
def cumSums (gs : List Game) (k : Nat) : Sums := cumFrom sumsZero gs k

/-- All nine per-game counts read by the loop are non-negative. -/
def gameNonneg (g : Game) : Prop :=
  0 ≤ (gameStat g).atBats.getD 0 ∧ 0 ≤ (gameStat g).hits.getD 0 ∧
  0 ≤ (gameStat g).baseOnBalls.getD 0 ∧ 0 ≤ (gameStat g).hitByPitch.getD 0 ∧
  0 ≤ (gameStat g).sacFlies.getD 0 ∧ 0 ≤ (gameStat g).doubles.getD 0 ∧
  0 ≤ (gameStat g).triples.getD 0 ∧ 0 ≤ (gameStat g).homeRuns.getD 0 ∧
  0 ≤ (gameStat g).totalBases.getD 0

instance (g : Game) : Decidable (gameNonneg g) := by
  unfold gameNonneg
  infer_instance

/-- The hypothesis of the ratio-bounds claim: counts non-negative and
`hits ≥ doubles + triples + homeRuns`. -/
def gameOk (g : Game) : Prop :=
  gameNonneg g ∧
    (gameStat g).doubles.getD 0 + (gameStat g).triples.getD 0 +
      (gameStat g).homeRuns.getD 0 ≤ (gameStat g).hits.getD 0

instance (g : Game) : Decidable (gameOk g) := by
  unfold gameOk
  infer_instance

/-- The strengthened per-game hypothesis under which the ratio bounds do
hold: additionally `hits ≤ atBats` and `totalBases ≤ 4·atBats`. -/
def gameValid (g : Game) : Prop :=
  gameOk g ∧ (gameStat g).hits.getD 0 ≤ (gameStat g).atBats.getD 0 ∧
    (gameStat g).totalBases.getD 0 ≤ 4 * (gameStat g).atBats.getD 0

instance (g : Game) : Decidable (gameValid g) := by
  unfold gameValid
  infer_instance

/-- Componentwise order on the six running sums. -/
def sumsLE (c d : Sums) : Prop :=
  c.ab ≤ d.ab ∧ c.h ≤ d.h ∧ c.bb ≤ d.bb ∧ c.hbp ≤ d.hbp ∧ c.sf ≤ d.sf ∧ c.tb ≤ d.tb

instance (c d : Sums) : Decidable (sumsLE c d) := by
  unfold sumsLE
  infer_instance

/-- Invariant carried by the running sums under valid per-game data. -/
def sumsValid (c : Sums) : Prop :=
  0 ≤ c.h ∧ c.h ≤ c.ab ∧ 0 ≤ c.bb ∧ 0 ≤ c.hbp ∧ 0 ≤ c.sf ∧
    0 ≤ c.tb ∧ c.tb ≤ 4 * c.ab

lemma foldl_step_eq (l : List Game) :
    ∀ (c : Sums) (acc : List Snapshot),
      (l.foldl step (c, acc)).2 = acc ++ specRun c acc.length l := by
  induction l with
  | nil => intro c acc; simp [specRun]
  | cons g rest ih =>
    intro c acc
    rw [List.foldl_cons]
    by_cases h : 0 < (addGame c g).ab
    · have hs : step (c, acc) g =
          (addGame c g, acc ++ [mkSnap (dateKey g) (acc.length + 1) (addGame c g)]) := by
        simp [step, h]
      rw [hs, ih, specRun]
      simp [h, List.append_assoc]
    · have hs : step (c, acc) g = (addGame c g, acc) := by
        simp [step, h]
      rw [hs, ih, specRun]
      simp [h]

lemma processGames_eq_specOut (gs : List Game) : processGames gs = specOut gs := by
  simpa using foldl_step_eq gs sumsZero []

lemma specRun_map_game_number (l : List Game) :
    ∀ (c : Sums) (k : Nat),
      (specRun c k l).map Snapshot.game_number =
        List.range' (k + 1) (specRun c k l).length := by
  induction l with
  | nil => intro c k; simp [specRun]
  | cons g rest ih =>
    intro c k
    rw [specRun]
    by_cases h : 0 < (addGame c g).ab
    · simp only [h, if_pos, List.map_cons, List.length_cons, List.range'_succ]
      rw [ih]
      simp [mkSnap]
    · simp only [h, if_neg, not_false_iff]
      exact ih _ _

lemma mem_specRun_ab_pos (l : List Game) :
    ∀ (c : Sums) (k : Nat) (x : Snapshot), x ∈ specRun c k l → 0 < x.ab := by
  induction l with
  | nil => intro c k x hx; simp [specRun] at hx
  | cons g rest ih =>
    intro c k x hx
    rw [specRun] at hx
    by_cases h : 0 < (addGame c g).ab
    · rw [if_pos h] at hx
      rcases List.mem_cons.mp hx with h1 | h2
      · rw [h1]; exact h
      · exact ih _ _ _ h2
    · rw [if_neg h] at hx
      exact ih _ _ _ hx

lemma cumFrom_cons_succ (c : Sums) (g : Game) (rest : List Game) (m : Nat) :
    cumFrom c (g :: rest) (m + 1) = cumFrom (addGame c g) rest m := by
  simp [cumFrom]

lemma specRun_eq_nil_iff (l : List Game) :
    ∀ (c : Sums) (k : Nat),
      specRun c k l = [] ↔
        ∀ m, 1 ≤ m → m ≤ l.length → ¬ 0 < (cumFrom c l m).ab := by
  induction l with
  | nil =>
    intro c k
    simp only [specRun, List.length_nil, true_iff]
    intro m h1 h0
    omega
  | cons g rest ih =>
    intro c k
    rw [specRun]
    by_cases h : 0 < (addGame c g).ab
    · rw [if_pos h]
      simp only [List.cons_ne_nil, false_iff, not_forall]
      refine ⟨1, by omega, by simp, ?_⟩
      simpa [cumFrom_cons_succ, cumFrom] using h
    · rw [if_neg h, ih (addGame c g) k]
      constructor
      · intro hall m h1 hm
        match m, h1 with
        | 1, _ => simpa [cumFrom_cons_succ, cumFrom] using h
        | m' + 2, _ =>
          rw [cumFrom_cons_succ]
          exact hall (m' + 1) (by omega) (by simpa using hm)
      · intro hall m h1 hm
        have := hall (m + 1) (by omega) (by simpa using hm)
        rwa [cumFrom_cons_succ] at this

lemma processGames_eq_nil_iff (l : List Game) :
    processGames l = [] ↔
      ∀ m, 1 ≤ m → m ≤ l.length → ¬ 0 < (cumSums l m).ab := by
  rw [processGames_eq_specOut, specOut, specRun_eq_nil_iff]
  rfl

lemma dateLE_trans (a b c : Game)
    (h1 : decide (dateKey a ≤ dateKey b) = true)
    (h2 : decide (dateKey b ≤ dateKey c) = true) :
    decide (dateKey a ≤ dateKey c) = true := by
  simp only [decide_eq_true_iff] at *
  exact le_trans h1 h2

lemma dateLE_total (a b : Game) :
    (decide (dateKey a ≤ dateKey b) || decide (dateKey b ≤ dateKey a)) = true := by
  simp only [Bool.or_eq_true, decide_eq_true_iff]
  exact le_total _ _

lemma sortGames_of_sorted {gs : List Game}
    (h : gs.Pairwise fun a b => dateKey a ≤ dateKey b) : sortGames gs = gs :=
  List.mergeSort_of_sorted (h.imp fun hab => decide_eq_true hab)

lemma get_log_of_sorted {gs : List Game}
    (h : gs.Pairwise fun a b => dateKey a ≤ dateKey b) :
    get_player_game_log gs =
      if processGames gs = [] then none else some (processGames gs) := by
  rw [get_player_game_log, sortGames_of_sorted h]

lemma resolveTB_nonneg (s : Stat)
    (hh : 0 ≤ s.hits.getD 0) (hd : 0 ≤ s.doubles.getD 0)
    (ht : 0 ≤ s.triples.getD 0) (hhr : 0 ≤ s.homeRuns.getD 0)
    (htb : 0 ≤ s.totalBases.getD 0) : 0 ≤ resolveTB s := by
  simp only [resolveTB]
  split_ifs with h
  · omega
  · omega

lemma resolveTB_le_four (s : Stat)
    (hd : 0 ≤ s.doubles.getD 0) (ht : 0 ≤ s.triples.getD 0)
    (_hhr : 0 ≤ s.homeRuns.getD 0)
    (hcons : s.doubles.getD 0 + s.triples.getD 0 + s.homeRuns.getD 0 ≤ s.hits.getD 0)
    (hha : s.hits.getD 0 ≤ s.atBats.getD 0)
    (htb : s.totalBases.getD 0 ≤ 4 * s.atBats.getD 0) :
    resolveTB s ≤ 4 * s.atBats.getD 0 := by
  simp only [resolveTB]
  split_ifs with h
  · omega
  · omega

lemma sumsLE_refl (c : Sums) : sumsLE c c := by
  unfold sumsLE
  omega

lemma sumsLE_trans {a b c : Sums} (h1 : sumsLE a b) (h2 : sumsLE b c) : sumsLE a c := by
  unfold sumsLE at *
  omega

lemma addGame_le (c : Sums) (g : Game) (h : gameNonneg g) : sumsLE c (addGame c g) := by
  unfold gameNonneg at h
  have h6 := resolveTB_nonneg (gameStat g) h.2.1 h.2.2.2.2.2.1 h.2.2.2.2.2.2.1
    h.2.2.2.2.2.2.2.1 h.2.2.2.2.2.2.2.2
  unfold sumsLE addGame
  dsimp only
  omega

lemma cumSums_succ (l : List Game) (j : Nat) (hj : j < l.length) :
    cumSums l (j + 1) = addGame (cumSums l j) (l.get ⟨j, hj⟩) := by
  rw [cumSums, cumSums, cumFrom, cumFrom, List.take_succ, List.foldl_append,
    List.getElem?_eq_getElem hj]
  simp [List.get_eq_getElem]

lemma cumSums_mono (l : List Game) (h : ∀ g ∈ l, gameNonneg g) :
    ∀ i j : Nat, i ≤ j → j ≤ l.length → sumsLE (cumSums l i) (cumSums l j) := by
  intro i j
  induction j with
  | zero =>
    intro hij _
    have hi : i = 0 := by omega
    subst hi
    exact sumsLE_refl _
  | succ j' ih =>
    intro hij hj
    rcases Nat.lt_or_ge i (j' + 1) with hlt | hge
    · have hj' : j' < l.length := by omega
      have h1 := ih (by omega) (by omega)
      have h2 := addGame_le (cumSums l j') (l.get ⟨j', hj'⟩)
        (h _ (l.get_mem _ _))
      rw [cumSums_succ l j' hj']
      exact sumsLE_trans h1 h2
    · have hi : i = j' + 1 := by omega
      subst hi
      exact sumsLE_refl _

lemma sumsValid_zero : sumsValid sumsZero := by
  unfold sumsValid sumsZero
  norm_num

lemma sumsValid_addGame {c : Sums} {g : Game}
    (hc : sumsValid c) (hg : gameValid g) : sumsValid (addGame c g) := by
  unfold gameValid gameOk gameNonneg at hg
  have h1 := resolveTB_nonneg (gameStat g) hg.1.1.2.1 hg.1.1.2.2.2.2.2.1
    hg.1.1.2.2.2.2.2.2.1 hg.1.1.2.2.2.2.2.2.2.1 hg.1.1.2.2.2.2.2.2.2.2
  have h2 := resolveTB_le_four (gameStat g) hg.1.1.2.2.2.2.2.1
    hg.1.1.2.2.2.2.2.2.1 hg.1.1.2.2.2.2.2.2.2.1 hg.1.2 hg.2.1 hg.2.2
  unfold sumsValid addGame at *
  dsimp only at *
  omega

lemma snap_ratio_bounds (c : Sums) (hc : sumsValid c) (hab : 0 < c.ab) :
    0 ≤ avgOf c ∧ avgOf c ≤ 1 ∧ 0 ≤ obpOf c ∧ obpOf c ≤ 1 ∧
      0 ≤ slgOf c ∧ slgOf c ≤ 4 := by
  obtain ⟨h1, h2, h3, h4, h5, h6, h7⟩ := hc
  have habQ : (0 : ℚ) < (c.ab : ℚ) := by exact_mod_cast hab
  refine ⟨?_, ?_, ?_, ?_, ?_, ?_⟩
  · rw [avgOf]
    exact div_nonneg (by exact_mod_cast h1) habQ.le
  · rw [avgOf, div_le_one habQ]
    exact_mod_cast h2
  · rw [obpOf]
    split_ifs with h
    · have hdQ : (0 : ℚ) < ((obpDenom c : Int) : ℚ) := by exact_mod_cast h
      refine div_nonneg ?_ hdQ.le
      have : (0 : Int) ≤ c.h + c.bb + c.hbp := by omega
      exact_mod_cast this
    · exact le_refl 0
  · rw [obpOf]
    split_ifs with h
    · have hdQ : (0 : ℚ) < ((obpDenom c : Int) : ℚ) := by exact_mod_cast h
      rw [div_le_one hdQ]
      have : c.h + c.bb + c.hbp ≤ obpDenom c := by
        unfold obpDenom
        omega
      exact_mod_cast this
    · norm_num
  · rw [slgOf]
    exact div_nonneg (by exact_mod_cast h6) habQ.le
  · rw [slgOf, div_le_iff₀ habQ]
    have : (c.tb : ℚ) ≤ 4 * (c.ab : ℚ) := by exact_mod_cast h7
    linarith

lemma specRun_bounds (l : List Game) :
    ∀ (c : Sums) (k : Nat), sumsValid c → (∀ g ∈ l, gameValid g) →
      ∀ x ∈ specRun c k l,
        0 ≤ x.avg ∧ x.avg ≤ 1 ∧ 0 ≤ x.obp ∧ x.obp ≤ 1 ∧ 0 ≤ x.slg ∧ x.slg ≤ 4 := by
  induction l with
  | nil => intro c k _ _ x hx; simp [specRun] at hx
  | cons g rest ih =>
    intro c k hc hl x hx
    have hg : gameValid g := hl g (List.mem_cons_self _ _)
    have hrest : ∀ g' ∈ rest, gameValid g' := fun g' hg' => hl g' (List.mem_cons_of_mem _ hg')
    have hc' : sumsValid (addGame c g) := sumsValid_addGame hc hg
    rw [specRun] at hx
    by_cases h : 0 < (addGame c g).ab
    · rw [if_pos h] at hx
      rcases List.mem_cons.mp hx with h1 | h2
      · subst h1
        have := snap_ratio_bounds (addGame c g) hc' h
        simpa [mkSnap] using this
      · exact ih _ _ hc' hrest x h2
    · rw [if_neg h] at hx
      exact ih _ _ hc' hrest x hx

/-- Claim C1: the aggregator emits a snapshot for a game if and only if
the cumulative at-bats total is positive after adding that game's at-bats
(no snapshot for a game in a prefix with cumulative at-bats zero), each
emitted snapshot carries a `gameNumber` that is its 1-based position among
emitted snapshots only, and skipped games still add to the running sums:
the loop coincides with the gate-transcribing `specOut`, and the emitted
`game_number`s are exactly `1, 2, …, count of emitted snapshots`. -/
theorem C1_zero_ab_gate_and_numbering (gs : List Game) :
    processGames gs = specOut gs ∧
    get_player_game_log gs =
      (if specOut (sortGames gs) = [] then none
       else some (specOut (sortGames gs))) ∧
    (processGames gs).map Snapshot.game_number =
      List.range' 1 (processGames gs).length := by
  refine ⟨processGames_eq_specOut gs, ?_, ?_⟩
  · rw [get_player_game_log, processGames_eq_specOut]
  · rw [processGames_eq_specOut, specOut]
    exact specRun_map_game_number gs sumsZero 0

/-- Claim C2: the resolved per-game total-bases value equals the
provider-supplied `totalBases` whenever that is positive; when the field
is absent or zero it equals `singles + 2·doubles + 3·triples + 4·homeRuns`
with `singles = hits - doubles - triples - homeRuns` (applied even for
zero hits, with no clamping of negative intermediates); in particular for
hits=3, doubles=1, triples=0, homeRuns=1 and `totalBases` absent the
resolved value is 7. -/
theorem C2_total_bases_resolution (s : Stat) :
    (∀ tb : Int, s.totalBases = some tb → 0 < tb → resolveTB s = tb) ∧
    ((s.totalBases = none ∨ s.totalBases = some 0) →
      resolveTB s =
        (s.hits.getD 0 - s.doubles.getD 0 - s.triples.getD 0 - s.homeRuns.getD 0) +
          s.doubles.getD 0 * 2 + s.triples.getD 0 * 3 + s.homeRuns.getD 0 * 4) ∧
    resolveTB { hits := some 3, doubles := some 1, triples := some 0, homeRuns := some 1 } = 7 := by
  refine ⟨?_, ?_, by decide⟩
  · intro tb htb hpos
    rw [resolveTB, htb]
    simp only [Option.getD_some]
    rw [if_neg (by omega)]
  · rintro (h | h) <;> rw [resolveTB, h] <;> simp

/-- Witness for C2 at concrete inputs: a positive provider value (5) is
taken as-is, and with `totalBases` absent and hits=2 the fallback formula
applies. -/
theorem C2_witness :
    resolveTB { totalBases := some 5 } = 5 ∧
    resolveTB { hits := some 2 } = 2 := by
  constructor
  · exact (C2_total_bases_resolution { totalBases := some 5 }).1 5 rfl (by omega)
  · have h := (C2_total_bases_resolution { hits := some 2 }).2.1 (Or.inl rfl)
    simpa using h

/-- Claim C9: the aggregation is deterministic and idempotent — two runs
on the same input list give the same output, and inputs that agree after
the sort step give identical output. -/
theorem C9_deterministic :
    (∀ gs : List Game, get_player_game_log gs = get_player_game_log gs) ∧
    ∀ l₁ l₂ : List Game, sortGames l₁ = sortGames l₂ →
      get_player_game_log l₁ = get_player_game_log l₂ := by
  refine ⟨fun _ => rfl, fun l₁ l₂ h => ?_⟩
  rw [get_player_game_log, get_player_game_log, h]

/-- Witness for C9 at the empty input. -/
theorem C9_witness :
    get_player_game_log [] = get_player_game_log [] :=
  C9_deterministic.2 [] [] rfl

/-- Claim C10: a game record lacking the entire stat object is accepted
as an all-zero game — its resolved total bases are 0, it contributes
nothing to the running sums, and when cumulative at-bats is already
positive the loop still appends a numbered snapshot echoing its date with
the unchanged cumulative values and ratios. -/
theorem C10_missing_stat_object (g : Game) (hg : g.stat = none) :
    resolveTB (gameStat g) = 0 ∧
    (∀ c : Sums, addGame c g = c) ∧
    (∀ (c : Sums) (acc : List Snapshot), 0 < c.ab →
      step (c, acc) g = (c, acc ++ [mkSnap (dateKey g) (acc.length + 1) c])) := by
  have hstat : gameStat g = {} := by rw [gameStat, hg]; rfl
  have hadd : ∀ c : Sums, addGame c g = c := by
    intro c
    rw [addGame, hstat]
    simp [resolveTB]
  refine ⟨by rw [hstat]; decide, hadd, ?_⟩
  intro c acc hc
  simp only [step, hadd, if_pos hc]

/-- Witness for C10: a dated game with no stat object, folded into
positive cumulative sums, leaves them unchanged and emits a snapshot. -/
theorem C10_witness :
    addGame ⟨1, 0, 0, 0, 0, 0⟩ ⟨some "2025-05-01", none⟩ = ⟨1, 0, 0, 0, 0, 0⟩ ∧
    step (⟨1, 0, 0, 0, 0, 0⟩, []) ⟨some "2025-05-01", none⟩ =
      (⟨1, 0, 0, 0, 0, 0⟩, [mkSnap "2025-05-01" 1 ⟨1, 0, 0, 0, 0, 0⟩]) := by
  have h := C10_missing_stat_object ⟨some "2025-05-01", none⟩ rfl
  refine ⟨h.2.1 _, ?_⟩
  have h2 := h.2.2 ⟨1, 0, 0, 0, 0, 0⟩ [] (by norm_num)
  simpa [dateKey] using h2

/-- Claim C3: the aggregator returns the distinguished "no data" result
(`none`) exactly when no game ever makes the cumulative at-bat total
positive (in particular for the empty input); on every other input it
returns `some` of a non-empty snapshot sequence. -/
theorem C3_no_data_result (gs : List Game) :
    (get_player_game_log gs = none ↔
      ∀ m, 1 ≤ m → m ≤ (sortGames gs).length →
        ¬ 0 < (cumSums (sortGames gs) m).ab) ∧
    (gs = [] → get_player_game_log gs = none) ∧
    (∀ l, get_player_game_log gs = some l → l ≠ []) := by
  have hiff : get_player_game_log gs = none ↔ processGames (sortGames gs) = [] := by
    by_cases h : processGames (sortGames gs) = []
    · rw [get_player_game_log, if_pos h]
      simp [h]
    · rw [get_player_game_log, if_neg h]
      simp [h]
  refine ⟨hiff.trans (processGames_eq_nil_iff _), ?_, ?_⟩
  · intro h
    subst h
    have hs : sortGames ([] : List Game) = [] := by simp [sortGames]
    rw [get_player_game_log, if_pos (by rw [hs]; rfl)]
  · intro l hl
    by_cases h : processGames (sortGames gs) = []
    · rw [get_player_game_log, if_pos h] at hl
      cases hl
    · rw [get_player_game_log, if_neg h] at hl
      intro hnil
      apply h
      injection hl with hl2
      rw [hl2, hnil]

/-- Witness for C3: the empty input yields `none`, and a one-game input
with four at-bats yields a non-empty snapshot list. -/
theorem C3_witness :
    get_player_game_log [] = none ∧
    ([(⟨"2025-04-01", 1, 5/4, 1/2, 3/4, 1/2, 4, 2⟩ : Snapshot)] : List Snapshot) ≠ [] := by
  have hsor : ([⟨some "2025-04-01",
      some { atBats := some 4, hits := some 2, totalBases := some 3 }⟩] :
        List Game).Pairwise (fun a b => dateKey a ≤ dateKey b) := by
    simp
  have hp : processGames [(⟨some "2025-04-01",
      some { atBats := some 4, hits := some 2, totalBases := some 3 }⟩ : Game)] =
      [(⟨"2025-04-01", 1, 5/4, 1/2, 3/4, 1/2, 4, 2⟩ : Snapshot)] := by
    simp only [processGames, List.foldl_cons, List.foldl_nil, step, addGame, gameStat,
      sumsZero, resolveTB, dateKey, Option.getD_some, Option.getD_none]
    norm_num [mkSnap, obpOf, obpDenom, slgOf, avgOf]
  have hlog : get_player_game_log [(⟨some "2025-04-01",
      some { atBats := some 4, hits := some 2, totalBases := some 3 }⟩ : Game)] =
      some [(⟨"2025-04-01", 1, 5/4, 1/2, 3/4, 1/2, 4, 2⟩ : Snapshot)] := by
    rw [get_log_of_sorted hsor, hp]
    simp
  exact ⟨(C3_no_data_result []).2.1 rfl, (C3_no_data_result _).2.2 _ hlog⟩

/-- Claim C4: games are processed in ascending lexicographic order of
their raw date strings (the output is the loop run on `sortGames`), a
missing date sorts as the empty string, the sorted list is a permutation
of the input, it is pairwise ordered by date key, and the sort is stable:
any equal-date subsequence of the input survives as a subsequence of the
sorted list. -/
theorem C4_date_sorting (gs : List Game) :
    get_player_game_log gs =
      (if processGames (sortGames gs) = [] then none
       else some (processGames (sortGames gs))) ∧
    (sortGames gs).Perm gs ∧
    (sortGames gs).Pairwise (fun a b => dateKey a ≤ dateKey b) ∧
    (∀ g : Game, g.date = none → dateKey g = "") ∧
    (∀ p : List Game, p.Pairwise (fun a b => dateKey a = dateKey b) →
      p.Sublist gs → p.Sublist (sortGames gs)) := by
  refine ⟨rfl, List.mergeSort_perm gs _, ?_, ?_, ?_⟩
  · have h := List.sorted_mergeSort dateLE_trans dateLE_total gs
    exact h.imp fun hab => of_decide_eq_true hab
  · intro g hg
    rw [dateKey, hg]
    rfl
  · intro p hp hsub
    exact List.sublist_mergeSort dateLE_trans dateLE_total
      (hp.imp fun hab => decide_eq_true (le_of_eq hab)) hsub

/-- Witness for C4: a game with no date has the empty-string key, and a
two-element equal-date input survives the sort in its original order. -/
theorem C4_witness :
    dateKey ⟨none, none⟩ = "" ∧
    ([⟨some "2025-06-01", none⟩, ⟨some "2025-06-01", some {}⟩] : List Game).Sublist
      (sortGames [⟨some "2025-06-01", none⟩, ⟨some "2025-06-01", some {}⟩]) := by
  constructor
  · exact (C4_date_sorting []).2.2.2.1 ⟨none, none⟩ rfl
  · refine (C4_date_sorting _).2.2.2.2 _ ?_ (List.Sublist.refl _)
    simp [dateKey]

/-- Claim C5 (Scenario B): for game1 with atBats=0, baseOnBalls=1 dated
before game2 with atBats=3, hits=1, totalBases=1, exactly one snapshot is
emitted, for game2, with cumulative atBats=3, hits=1, walks=1,
onBasePercentage 1/2 (= .500), sluggingPercentage 1/3 (= .333) and
onBasePlusSlugging 5/6 (= .833). -/
theorem C5_scenario_B :
    get_player_game_log [⟨some "2025-04-01", some { baseOnBalls := some 1 }⟩,
        ⟨some "2025-04-02", some { atBats := some 3, hits := some 1, totalBases := some 1 }⟩] =
      some [(⟨"2025-04-02", 1, 5/6, 1/2, 1/3, 1/3, 3, 1⟩ : Snapshot)] ∧
    (cumSums (sortGames [⟨some "2025-04-01", some { baseOnBalls := some 1 }⟩,
        ⟨some "2025-04-02", some { atBats := some 3, hits := some 1, totalBases := some 1 }⟩]) 2).ab = 3 ∧
    (cumSums (sortGames [⟨some "2025-04-01", some { baseOnBalls := some 1 }⟩,
        ⟨some "2025-04-02", some { atBats := some 3, hits := some 1, totalBases := some 1 }⟩]) 2).h = 1 ∧
    (cumSums (sortGames [⟨some "2025-04-01", some { baseOnBalls := some 1 }⟩,
        ⟨some "2025-04-02", some { atBats := some 3, hits := some 1, totalBases := some 1 }⟩]) 2).bb = 1 := by
  have hsor : ([⟨some "2025-04-01", some { baseOnBalls := some 1 }⟩,
      ⟨some "2025-04-02", some { atBats := some 3, hits := some 1, totalBases := some 1 }⟩] :
        List Game).Pairwise (fun a b => dateKey a ≤ dateKey b) := by
    simp only [List.pairwise_cons, List.mem_singleton, List.not_mem_nil, false_implies,
      implies_true, and_true, forall_eq, List.Pairwise.nil]
    simp only [dateKey, Option.getD_some]
    rw [String.le_iff_toList_le]
    decide
  have hs := sortGames_of_sorted hsor
  have hp : processGames [(⟨some "2025-04-01", some { baseOnBalls := some 1 }⟩ : Game),
      ⟨some "2025-04-02", some { atBats := some 3, hits := some 1, totalBases := some 1 }⟩] =
      [(⟨"2025-04-02", 1, 5/6, 1/2, 1/3, 1/3, 3, 1⟩ : Snapshot)] := by
    simp only [processGames, List.foldl_cons, List.foldl_nil, step, addGame, gameStat,
      sumsZero, resolveTB, dateKey, Option.getD_some, Option.getD_none]
    norm_num [mkSnap, obpOf, obpDenom, slgOf, avgOf]
  refine ⟨?_, ?_, ?_, ?_⟩
  · rw [get_log_of_sorted hsor, hp]
    simp
  · rw [hs]; decide
  · rw [hs]; decide
  · rw [hs]; decide

/-- Claim C8: no division by zero can occur — every emitted snapshot has
a positive cumulative at-bat count (the denominator of battingAverage and
sluggingPercentage), and the on-base-percentage division is performed only
when its denominator is positive, with an explicit fallback of 0
otherwise. -/
theorem C8_division_guards :
    (∀ (gs : List Game) (x : Snapshot), x ∈ processGames gs → 0 < x.ab) ∧
    (∀ c : Sums, ¬ 0 < obpDenom c → obpOf c = 0) ∧
    (∀ c : Sums, 0 < obpDenom c →
      obpOf c = ((c.h + c.bb + c.hbp : Int) : ℚ) / ((obpDenom c : Int) : ℚ)) := by
  refine ⟨?_, ?_, ?_⟩
  · intro gs x hx
    rw [processGames_eq_specOut, specOut] at hx
    exact mem_specRun_ab_pos gs sumsZero 0 x hx
  · intro c h
    rw [obpOf, if_neg h]
  · intro c h
    rw [obpOf, if_pos h]

/-- Witness for C8: the snapshot emitted for a two-at-bat game has a
positive at-bat count, and the all-zero sums take the obp fallback 0. -/
theorem C8_witness :
    (0 : Int) < (⟨"", 1, 1, 1/2, 1/2, 1/2, 2, 1⟩ : Snapshot).ab ∧
    obpOf sumsZero = 0 := by
  have hp : processGames [(⟨none, some { atBats := some 2, hits := some 1 }⟩ : Game)] =
      [(⟨"", 1, 1, 1/2, 1/2, 1/2, 2, 1⟩ : Snapshot)] := by
    simp only [processGames, List.foldl_cons, List.foldl_nil, step, addGame, gameStat,
      sumsZero, resolveTB, dateKey, Option.getD_some, Option.getD_none]
    norm_num [mkSnap, obpOf, obpDenom, slgOf, avgOf]
  refine ⟨C8_division_guards.1 [⟨none, some { atBats := some 2, hits := some 1 }⟩] _ ?_,
    C8_division_guards.2.1 sumsZero (by norm_num [obpDenom, sumsZero])⟩
  rw [hp]
  exact List.mem_singleton_self _

/-- Counterexample to claim C6 as stated: with every per-game count
non-negative and hits ≥ doubles+triples+homeRuns (the claim's only
hypotheses), a walk-less game with hits=2 but atBats=0 followed by a game
with atBats=1 and provider totalBases=100 produces an emitted snapshot
whose battingAverage is 2 (outside [0,1]) and sluggingPercentage is 102
(outside [0,4]). -/
theorem C6_counterexample :
    (∀ g ∈ ([⟨some "2025-04-01", some { hits := some 2 }⟩,
        ⟨some "2025-04-02", some { atBats := some 1, totalBases := some 100 }⟩] : List Game),
      gameOk g) ∧
    ∃ x ∈ processGames (sortGames [⟨some "2025-04-01", some { hits := some 2 }⟩,
        ⟨some "2025-04-02", some { atBats := some 1, totalBases := some 100 }⟩]),
      1 < x.avg ∧ 4 < x.slg := by
  have hsor : ([⟨some "2025-04-01", some { hits := some 2 }⟩,
      ⟨some "2025-04-02", some { atBats := some 1, totalBases := some 100 }⟩] :
        List Game).Pairwise (fun a b => dateKey a ≤ dateKey b) := by
    simp only [List.pairwise_cons, List.mem_singleton, List.not_mem_nil, false_implies,
      implies_true, and_true, forall_eq, List.Pairwise.nil]
    simp only [dateKey, Option.getD_some]
    rw [String.le_iff_toList_le]
    decide
  have hs := sortGames_of_sorted hsor
  have hp : processGames [(⟨some "2025-04-01", some { hits := some 2 }⟩ : Game),
      ⟨some "2025-04-02", some { atBats := some 1, totalBases := some 100 }⟩] =
      [(⟨"2025-04-02", 1, 104, 2, 102, 2, 1, 2⟩ : Snapshot)] := by
    simp only [processGames, List.foldl_cons, List.foldl_nil, step, addGame, gameStat,
      sumsZero, resolveTB, dateKey, Option.getD_some, Option.getD_none]
    norm_num [mkSnap, obpOf, obpDenom, slgOf, avgOf]
  refine ⟨by decide, ?_⟩
  rw [hs, hp]
  exact ⟨_, List.mem_singleton_self _, by norm_num⟩

/-- Claim C6 amended: for every input in which every per-game count is
non-negative, hits ≥ doubles+triples+homeRuns, hits ≤ atBats, and the
provider totalBases ≤ 4·atBats, every emitted snapshot has battingAverage
in [0,1], onBasePercentage in [0,1], and sluggingPercentage in [0,4]. -/
theorem C6_ratio_bounds (gs : List Game) (hv : ∀ g ∈ gs, gameValid g) :
    ∀ x ∈ processGames (sortGames gs),
      0 ≤ x.avg ∧ x.avg ≤ 1 ∧ 0 ≤ x.obp ∧ x.obp ≤ 1 ∧ 0 ≤ x.slg ∧ x.slg ≤ 4 := by
  intro x hx
  rw [processGames_eq_specOut, specOut] at hx
  refine specRun_bounds _ sumsZero 0 sumsValid_zero ?_ x hx
  intro g hg
  unfold sortGames at hg
  exact hv g (List.mem_mergeSort.mp hg)

/-- Witness for the amended C6 on a single valid four-at-bat game. -/
theorem C6_witness :
    0 ≤ (⟨"2025-04-03", 1, 5/4, 1/2, 3/4, 1/2, 4, 2⟩ : Snapshot).avg ∧
    (⟨"2025-04-03", 1, 5/4, 1/2, 3/4, 1/2, 4, 2⟩ : Snapshot).avg ≤ 1 ∧
    0 ≤ (⟨"2025-04-03", 1, 5/4, 1/2, 3/4, 1/2, 4, 2⟩ : Snapshot).obp ∧
    (⟨"2025-04-03", 1, 5/4, 1/2, 3/4, 1/2, 4, 2⟩ : Snapshot).obp ≤ 1 ∧
    0 ≤ (⟨"2025-04-03", 1, 5/4, 1/2, 3/4, 1/2, 4, 2⟩ : Snapshot).slg ∧
    (⟨"2025-04-03", 1, 5/4, 1/2, 3/4, 1/2, 4, 2⟩ : Snapshot).slg ≤ 4 := by
  have hs : sortGames [(⟨some "2025-04-03",
      some { atBats := some 4, hits := some 2, totalBases := some 3 }⟩ : Game)] =
      [(⟨some "2025-04-03",
        some { atBats := some 4, hits := some 2, totalBases := some 3 }⟩ : Game)] := by
    simp [sortGames]
  have hp : processGames (sortGames [(⟨some "2025-04-03",
      some { atBats := some 4, hits := some 2, totalBases := some 3 }⟩ : Game)]) =
      [(⟨"2025-04-03", 1, 5/4, 1/2, 3/4, 1/2, 4, 2⟩ : Snapshot)] := by
    rw [hs]
    simp only [processGames, List.foldl_cons, List.foldl_nil, step, addGame, gameStat,
      sumsZero, resolveTB, dateKey, Option.getD_some, Option.getD_none]
    norm_num [mkSnap, obpOf, obpDenom, slgOf, avgOf]
  exact C6_ratio_bounds
    [(⟨some "2025-04-03", some { atBats := some 4, hits := some 2, totalBases := some 3 }⟩ : Game)]
    (by decide) _ (by rw [hp]; exact List.mem_singleton_self _)

/-- Counterexample to claim C7 as stated: over arbitrary inputs (the
claim has no non-negativity hypothesis, and the permissive aggregator
accepts negative counts from inconsistent upstream data), a game with
atBats = -1 makes the cumulative at-bat sum decrease, so the running sums
at the later game are not all ≥ those at the earlier game. -/
theorem C7_counterexample :
    ¬ sumsLE
      (cumSums (sortGames [⟨some "2025-04-01", some { atBats := some 1 }⟩,
        ⟨some "2025-04-02", some { atBats := some (-1) }⟩]) 1)
      (cumSums (sortGames [⟨some "2025-04-01", some { atBats := some 1 }⟩,
        ⟨some "2025-04-02", some { atBats := some (-1) }⟩]) 2) := by
  have hsor : ([⟨some "2025-04-01", some { atBats := some 1 }⟩,
      ⟨some "2025-04-02", some { atBats := some (-1) }⟩] :
        List Game).Pairwise (fun a b => dateKey a ≤ dateKey b) := by
    simp only [List.pairwise_cons, List.mem_singleton, List.not_mem_nil, false_implies,
      implies_true, and_true, forall_eq, List.Pairwise.nil]
    simp only [dateKey, Option.getD_some]
    rw [String.le_iff_toList_le]
    decide
  rw [sortGames_of_sorted hsor]
  decide

/-- Claim C7 amended: for every input in which every per-game count is
non-negative, and every pair of positions i ≤ j in sorted order, each of
the six running sums at j is ≥ its value at i. -/
theorem C7_monotonic_sums (gs : List Game) (hpos : ∀ g ∈ gs, gameNonneg g) :
    ∀ i j : Nat, i ≤ j → j ≤ (sortGames gs).length →
      sumsLE (cumSums (sortGames gs) i) (cumSums (sortGames gs) j) := by
  have hpos2 : ∀ g ∈ sortGames gs, gameNonneg g := by
    intro g hg
    unfold sortGames at hg
    exact hpos g (List.mem_mergeSort.mp hg)
  intro i j hij hj
  exact cumSums_mono _ hpos2 i j hij hj

/-- Witness for the amended C7 on a one-game non-negative input. -/
theorem C7_witness :
    sumsLE (cumSums (sortGames [(⟨some "2025-04-01", some { atBats := some 1 }⟩ : Game)]) 0)
      (cumSums (sortGames [(⟨some "2025-04-01", some { atBats := some 1 }⟩ : Game)]) 1) := by
  refine C7_monotonic_sums _ (by decide) 0 1 (by omega) ?_
  simp [sortGames]

end MLB
